import Mathlib

/-!
Shallow embedding of the HostFlow cloud-sync layer
(`src/services/cloudService.ts`, latest variant `v41`, together with the
client-handle logic of `src/services/supabaseClient.ts`).

The remote Supabase backend is modelled as an explicit environment
(`Remote`): the configured/unconfigured handle is a Boolean, the auth
API's responses are fields or response functions, remote failures are
injected through `Option String` error fields, and the `vaults` table is
an in-memory list of rows.  Each reconciler operation of `cloudSync`
becomes a total Lean function threading the environment; a JavaScript
`throw` is modelled as `Except.error`, the `LoginResult` tagged union is
an inductive, and JS falsiness of the empty string is modelled
explicitly where the source relies on it (`pushData`'s `!targetUserId`).
-/

namespace HostFlow

/-- JSON values, the shape of a vault `state` body. -/
inductive Json where
  | jnull
  | jbool (b : Bool)
  | jnum (n : Int)
  | jstr (s : String)
  | jarr (elems : List Json)
  | jobj (fields : List (String × Json))

/-- Field access on a JSON object: first binding wins (JS object keys are
unique; `List.lookup` returns the first). Non-objects have no fields. -/
def Json.getField (j : Json) (key : String) : Option Json :=
  match j with
  | .jobj fields => fields.lookup key
  | _ => none

/-- A user record of the remote auth service: `id`, `email`,
`user_metadata.full_name`.  `email` and the metadata name are optional,
as in the Supabase API. -/
structure SbUser where
  id : String
  email : Option String
  fullName : Option String

/-- One row of the remote `vaults` table:
`user_id` (primary key), `state` (JSONB), `last_synced`, `app_version`. -/
structure VaultRow where
  user_id : String
  state : Json
  last_synced : String
  app_version : String

/-- The remote `vaults` table. -/
structure DB where
  vaults : List VaultRow

/-- Response of `supabase.auth.signUp`: `{ data: { user, session }, error }`.
`hasSession` records whether `data.session` is present. -/
structure SignUpResult where
  error : Option String
  user : Option SbUser
  hasSession : Bool

/-- The remote environment.  `configured = false` models the `null`
handle of `supabaseClient.ts` (credentials missing).  `signIn` and
`signUp` give the auth API's response to the submitted credentials;
`getSessionError` / `session` model `auth.getSession`; `currentUser`
models `auth.getUser`; `selectError` / `upsertError` inject remote
errors of the `vaults` table reads and writes; `now` is `Date.now()`
and `nowIso` is `new Date().toISOString()`. -/
structure Remote where
  configured : Bool
  getSessionError : Option String
  session : Option SbUser
  signIn : String → String → Option String × Option SbUser
  signUp : String → String → String → SignUpResult
  currentUser : Option SbUser
  selectError : Option String
  upsertError : Option String
  now : Int
  nowIso : String
  db : DB

/-- The fixed `stayPackages` seed of `getInitialState`. -/
def stayPackagesSeed : Json :=
  .jarr [
    .jobj [("id", .jstr "p1"), ("title", .jstr "Basic Stay"),
           ("desc", .jstr "Standard room access."), ("iconType", .jstr "home")],
    .jobj [("id", .jstr "p2"), ("title", .jstr "Premium Suite"),
           ("desc", .jstr "Luxury quarters upgrade."), ("iconType", .jstr "star")],
    .jobj [("id", .jstr "p3"), ("title", .jstr "Event Hall"),
           ("desc", .jstr "Access to gardens and main hall."), ("iconType", .jstr "sparkles")]]

/-- `getInitialState(email?, name?)`: the default vault body for new
users.  `timestamp: Date.now()` is the environment's `now`.  A JS field
whose value is `undefined` is dropped on JSONB serialization, so the
optional `userEmail` / `userName` fields are present exactly when their
argument is. -/
def getInitialState (now : Int) (email name : Option String) : Json :=
  .jobj ([("properties", .jarr []),
          ("activePropertyId", .jstr "all"),
          ("allBookings", .jarr []),
          ("allTransactions", .jarr []),
          ("allGuests", .jarr []),
          ("allStaffLogs", .jarr []),
          ("allInventory", .jarr []),
          ("stayPackages", stayPackagesSeed),
          ("timestamp", .jnum now)]
         ++ (match email with | some e => [("userEmail", Json.jstr e)] | none => [])
         ++ (match name with | some n => [("userName", Json.jstr n)] | none => []))

/-- `email.trim().toLowerCase()` as applied by `login` / `createAccount`. -/
def normEmail (email : String) : String := email.trim.toLower

/-- `password.trim()` as applied by `login` / `createAccount`. -/
def normPassword (password : String) : String := password.trim

/-- Postgres upsert on `vaults` keyed by the primary key `user_id`:
full replacement of the row when one exists, insert otherwise. -/
def DB.upsert (db : DB) (uid : String) (state : Json) (synced ver : String) : DB :=
  let row : VaultRow := ⟨uid, state, synced, ver⟩
  if db.vaults.any (fun r => r.user_id == uid) then
    ⟨db.vaults.map (fun r => if r.user_id == uid then row else r)⟩
  else
    ⟨db.vaults ++ [row]⟩

/-- `select('state').eq('user_id', userId).maybeSingle()` on the
`vaults` table (at most one row per id by the primary-key invariant). -/
def DB.findVault (db : DB) (uid : String) : Option VaultRow :=
  db.vaults.find? (fun r => r.user_id == uid)

/-- The tagged union `LoginResult` of `cloudService.ts`:
`{ ok: true, state, warning? }` or `{ ok: false, error }`. -/
inductive LoginResult where
  | ok (state : Json) (warning : Option String)
  | err (error : String)

/-- `cloudSync.pushData(state, userId?)`.  JS falsiness: an omitted or
empty `userId` falls back to the current user of `auth.getUser`, and an
unresolvable (absent or empty) target id returns `false` before any
write.  Never throws: remote errors become `false`. -/
def pushData (env : Remote) (state : Json) (userId : Option String) :
    Bool × Remote :=
  if !env.configured then (false, env)
  else
    let supplied : Option String :=
      match userId with
      | some s => if s == "" then none else some s
      | none => none
    let target : Option String :=
      match supplied with
      | some s => some s
      | none =>
        match env.currentUser with
        | some u => if u.id == "" then none else some u.id
        | none => none
    match target with
    | none => (false, env)
    | some t =>
      match env.upsertError with
      | some _ => (false, env)
      | none => (true, { env with db := env.db.upsert t state env.nowIso "v41" })

/-- `cloudSync.fetchVault(userId)`.  Throws (`Except.error`) when the
handle is unconfigured, when the select errors, and when the seeding
persist fails; seeds and persists a default vault when no row exists;
returns the row's `state` verbatim otherwise. -/
def fetchVault (env : Remote) (userId : String) : Except String Json × Remote :=
  if !env.configured then (Except.error "Supabase client unavailable.", env)
  else
    match env.selectError with
    | some msg => (Except.error msg, env)
    | none =>
      match env.db.findVault userId with
      | some row => (Except.ok row.state, env)
      | none =>
        let freshState := getInitialState env.now
          (env.currentUser.bind SbUser.email) (env.currentUser.bind SbUser.fullName)
        match pushData env freshState (some userId) with
        | (true, env1) => (Except.ok freshState, env1)
        | (false, env1) => (Except.error "Failed to initialize vault.", env1)

/-- The non-fatal warning `login` attaches when the vault is
inaccessible after successful authentication. -/
def vaultWarning (msg : String) : String :=
  s!"Cloud vault inaccessible ({msg}). Operating in session-only mode."

/-- `cloudSync.login(email, password)`. -/
def login (env : Remote) (email password : String) : LoginResult × Remote :=
  if !env.configured then (.err "Supabase client not initialized.", env)
  else
    match env.signIn (normEmail email) (normPassword password) with
    | (some msg, _) => (.err msg, env)
    | (none, none) => (.err "Authentication succeeded but no user data returned.", env)
    | (none, some user) =>
      match fetchVault env user.id with
      | (Except.ok state, env1) => (.ok state none, env1)
      | (Except.error msg, env1) =>
        (.ok (getInitialState env.now user.email user.fullName)
           (some (vaultWarning msg)), env1)

/-- `cloudSync.resumeSession()`: `none` models the `null` "no session"
outcome. -/
def resumeSession (env : Remote) : Option Json × Remote :=
  if !env.configured then (none, env)
  else
    match env.getSessionError with
    | some _ => (none, env)
    | none =>
      match env.session with
      | none => (none, env)
      | some user =>
        match fetchVault env user.id with
        | (Except.ok state, env1) => (some state, env1)
        | (Except.error _, env1) =>
          (some (getInitialState env.now user.email user.fullName), env1)

/-- `cloudSync.createAccount(email, password, name?)`. -/
def createAccount (env : Remote) (email password : String) (name : Option String) :
    LoginResult × Remote :=
  if !env.configured then (.err "Supabase not connected", env)
  else
    let resp := env.signUp (normEmail email) (normPassword password)
      (name.getD "Host")
    match resp.error with
    | some msg => (.err msg, env)
    | none =>
      match resp.user with
      | some user =>
        if resp.hasSession then
          let initialState := getInitialState env.now user.email name
          match pushData env initialState (some user.id) with
          | (_, env1) => (.ok initialState none, env1)
        else (.err "Confirmation Required: Check your inbox to activate your vault.", env)
      | none => (.err "Registration process failed to return identity.", env)

/-- `v.state?.userEmail?.toLowerCase()` of the admin scans.  Absent or
null `userEmail` yields no value (JS optional chaining); the vault data
model makes the field a string whenever present, so non-string values
do not arise for rows this layer writes (in JS they would raise). -/
def userEmailLower (state : Json) : Option String :=
  match state.getField "userEmail" with
  | some (.jstr s) => some s.toLower
  | _ => none

/-- The vault-body shape assumed by the admin scans: `userEmail` is a
string when present (absent or null otherwise). -/
def emailFieldOk (state : Json) : Prop :=
  state.getField "userEmail" = none ∨ state.getField "userEmail" = some Json.jnull ∨
    ∃ s, state.getField "userEmail" = some (Json.jstr s)

/-- `cloudSync.adminGetUserData(email)`: linear scan of all rows for a
case-insensitive match on the denormalized `userEmail` field, returning
the first matching body or `none`. -/
def adminGetUserData (env : Remote) (email : String) : Option Json :=
  if !env.configured then none
  else
    match env.selectError with
    | some _ => none
    | none =>
      (env.db.vaults.find? (fun v => userEmailLower v.state == some email.toLower)).map
        VaultRow.state

/-! ### Helper lemmas on the vaults table -/

/-- Replacing every row keyed `uid` by `row` and then looking `uid` up
finds `row`, provided some row carried that key. -/
theorem find_replace_self (uid : String) (row : VaultRow)
    (l : List VaultRow) (hmem : l.any (fun r => r.user_id == uid) = true)
    (hrow : row.user_id = uid) :
    (l.map (fun r => if r.user_id == uid then row else r)).find?
      (fun r => r.user_id == uid) = some row := by
  induction l with
  | nil => simp at hmem
  | cons r rs ih =>
    cases hr : (r.user_id == uid) with
    | true =>
      simp only [List.map_cons, hr, if_true]
      exact List.find?_cons_of_pos _ (by simp [hrow])
    | false =>
      simp only [List.any_cons, hr, Bool.false_or] at hmem
      simp only [List.map_cons, hr, Bool.false_eq_true, if_false]
      rw [List.find?_cons_of_neg _ (by simp [hr])]
      exact ih hmem

/-- Replacing the rows keyed `uid` does not affect a lookup at a
different key. -/
theorem find_replace_other (uid uid2 : String) (row : VaultRow)
    (l : List VaultRow) (hrow : row.user_id = uid) (hne : uid2 ≠ uid) :
    (l.map (fun r => if r.user_id == uid then row else r)).find?
      (fun r => r.user_id == uid2) = l.find? (fun r => r.user_id == uid2) := by
  induction l with
  | nil => simp
  | cons r rs ih =>
    cases hr : (r.user_id == uid) with
    | true =>
      have hru : r.user_id = uid := by simpa using hr
      have hrow2 : ¬ (row.user_id == uid2) = true := by
        simp only [hrow, beq_iff_eq]
        exact fun h => hne h.symm
      have hr2 : ¬ (r.user_id == uid2) = true := by
        simp only [hru, beq_iff_eq]
        exact fun h => hne h.symm
      simp only [List.map_cons, hr, if_true]
      rw [@List.find?_cons_of_neg _ (fun r => r.user_id == uid2) row _ hrow2,
        @List.find?_cons_of_neg _ (fun r => r.user_id == uid2) r _ hr2]
      exact ih
    | false =>
      simp only [List.map_cons, hr, Bool.false_eq_true, if_false]
      cases hc : (r.user_id == uid2) with
      | true =>
        rw [@List.find?_cons_of_pos _ (fun r => r.user_id == uid2) r _ hc,
          @List.find?_cons_of_pos _ (fun r => r.user_id == uid2) r _ hc]
      | false =>
        rw [@List.find?_cons_of_neg _ (fun r => r.user_id == uid2) r _ (by simp [hc]),
          @List.find?_cons_of_neg _ (fun r => r.user_id == uid2) r _ (by simp [hc])]
        exact ih

/-- Appending a row keyed `uid` to a table with no row of that key makes
the lookup at `uid` find the appended row. -/
theorem find_append_self (uid : String) (row : VaultRow)
    (l : List VaultRow) (hmem : l.any (fun r => r.user_id == uid) = false)
    (hrow : row.user_id = uid) :
    (l ++ [row]).find? (fun r => r.user_id == uid) = some row := by
  rw [List.find?_append]
  have hnone : l.find? (fun r => r.user_id == uid) = none := by
    rw [List.find?_eq_none]
    intro x hx hpx
    rw [List.any_eq_true.mpr ⟨x, hx, hpx⟩] at hmem
    exact Bool.true_eq_false.mp hmem
  rw [hnone, List.find?_cons_of_pos _ (by simp [hrow])]
  rfl

/-- Appending a row of a different key does not affect a lookup. -/
theorem find_append_other (uid2 : String) (row : VaultRow)
    (l : List VaultRow) (hrow : ¬ (row.user_id == uid2) = true) :
    (l ++ [row]).find? (fun r => r.user_id == uid2) =
      l.find? (fun r => r.user_id == uid2) := by
  rw [List.find?_append]
  cases h : l.find? (fun r => r.user_id == uid2) with
  | some a => rfl
  | none =>
    rw [@List.find?_cons_of_neg _ (fun r => r.user_id == uid2) row _ hrow]
    rfl

/-- After an upsert keyed by `uid`, the lookup at `uid` is exactly the
freshly written row. -/
theorem DB.findVault_upsert_self (db : DB) (uid : String) (state : Json)
    (synced ver : String) :
    (db.upsert uid state synced ver).findVault uid =
      some ⟨uid, state, synced, ver⟩ := by
  simp only [DB.upsert, DB.findVault]
  cases hmem : db.vaults.any (fun r => r.user_id == uid) with
  | true =>
    simp only [hmem, if_true]
    exact find_replace_self uid _ db.vaults hmem rfl
  | false =>
    simp only [hmem, Bool.false_eq_true, if_false]
    exact find_append_self uid _ db.vaults hmem rfl

/-- An upsert keyed by `uid` leaves lookups at every other id unchanged. -/
theorem DB.findVault_upsert_other (db : DB) (uid uid2 : String) (state : Json)
    (synced ver : String) (hne : uid2 ≠ uid) :
    (db.upsert uid state synced ver).findVault uid2 = db.findVault uid2 := by
  simp only [DB.upsert, DB.findVault]
  cases hmem : db.vaults.any (fun r => r.user_id == uid) with
  | true =>
    simp only [hmem, if_true]
    exact find_replace_other uid uid2 _ db.vaults rfl hne
  | false =>
    simp only [hmem, Bool.false_eq_true, if_false]
    exact find_append_other uid2 _ db.vaults
      (by simp only [beq_iff_eq]; exact fun h => hne h.symm)

/-! ### Concrete fixtures used by the witnesses -/

def userA : SbUser := ⟨"uid-1", some "a@x.com", some "Alice"⟩

def rowA : VaultRow := ⟨"uid-1", Json.jstr "S", "t0", "v41"⟩

def envA : Remote :=
  { configured := true,
    getSessionError := none,
    session := some userA,
    signIn := fun _ _ => (none, some userA),
    signUp := fun _ _ _ => ⟨none, some userA, true⟩,
    currentUser := some userA,
    selectError := none,
    upsertError := none,
    now := 5,
    nowIso := "2026-01-01T00:00:00.000Z",
    db := ⟨[rowA]⟩ }

def envOff : Remote := { envA with configured := false }

def envSelErr : Remote := { envA with selectError := some "boom" }

def envUpErr : Remote := { envA with upsertError := some "denied" }

def envNoRow : Remote := { envA with db := ⟨[]⟩ }

/-! ### Claims -/

/-- C1: whenever the password-authentication call succeeds and returns an
identity, `login` returns an `ok`-tagged result: the fetched vault when
`fetchVault` succeeds, and a freshly seeded default vault with a
non-fatal warning when `fetchVault` throws; it never returns an
`err`-tagged result once authentication has succeeded with an identity. -/
theorem login_after_auth_success (env : Remote) (email password : String)
    (u : SbUser) (hconf : env.configured = true)
    (hauth : env.signIn (normEmail email) (normPassword password) = (none, some u)) :
    (∀ st env1, fetchVault env u.id = (Except.ok st, env1) →
        login env email password = (.ok st none, env1)) ∧
    (∀ msg env1, fetchVault env u.id = (Except.error msg, env1) →
        login env email password =
          (.ok (getInitialState env.now u.email u.fullName)
            (some (vaultWarning msg)), env1)) ∧
    (∀ e, (login env email password).1 ≠ .err e) := by
  refine ⟨?_, ?_, ?_⟩
  · intro st env1 h
    simp [login, hconf, hauth, h]
  · intro msg env1 h
    simp [login, hconf, hauth, h]
  · intro e
    cases hfv : fetchVault env u.id with
    | mk r env1 =>
      cases r with
      | ok st => simp [login, hconf, hauth, hfv]
      | error msg => simp [login, hconf, hauth, hfv]

theorem login_after_auth_success_w :
    login envA "A@X.com" "pw" = (.ok (Json.jstr "S") none, envA) :=
  (login_after_auth_success envA "A@X.com" "pw" userA rfl rfl).1
    (Json.jstr "S") envA rfl

/-- C2 counterexample: with the handle unconfigured, `fetchVault` does
not return a degraded "remote not configured" outcome — it throws
(modelled as `Except.error`), contradicting the claim that every
reconciler operation returns such an outcome without throwing. -/
theorem fetchVault_unconfigured_throws :
    (fetchVault envOff "uid-1").1 =
      Except.error "Supabase client unavailable." := rfl

/-- C2 (amended): when the configuration is missing either credential
the handle is the null sentinel and the reconciler operations degrade
without throwing — `login` fails with "Supabase client not initialized."
leaving the environment untouched and consulting no remote endpoint
(the statement holds for every `signIn` behaviour, so no network call is
attempted), and `pushData`, `resumeSession`, `createAccount` and
`adminGetUserData` likewise return their degraded outcomes — with the
one exception of `fetchVault`, which throws
"Supabase client unavailable." for its callers to catch. -/
theorem unconfigured_degraded (env : Remote) (hconf : env.configured = false) :
    (∀ email password,
        login env email password = (.err "Supabase client not initialized.", env)) ∧
    (∀ uid, fetchVault env uid = (Except.error "Supabase client unavailable.", env)) ∧
    (∀ st uid, pushData env st uid = (false, env)) ∧
    resumeSession env = (none, env) ∧
    (∀ email password name,
        createAccount env email password name = (.err "Supabase not connected", env)) ∧
    (∀ email, adminGetUserData env email = none) := by
  refine ⟨fun _ _ => ?_, fun _ => ?_, fun _ _ => ?_, ?_, fun _ _ _ => ?_, fun _ => ?_⟩ <;>
    simp [login, fetchVault, pushData, resumeSession, createAccount,
      adminGetUserData, hconf]

theorem unconfigured_degraded_w :
    login envOff "a@x.com" "secret" =
      (.err "Supabase client not initialized.", envOff) :=
  (unconfigured_degraded envOff rfl).1 "a@x.com" "secret"

/-- C3: `fetchVault` satisfies the three-case contract: a remote read
error propagates as a thrown failure; with no row it seeds the default
vault (three fixed `stayPackages` entries `p1`,`p2`,`p3`, empty
bookings/transactions/guests/staff-logs/inventory sequences), persists
it via `pushData` — throwing if that persist fails — and returns it;
with a row it returns the row's JSON body verbatim. -/
theorem fetchVault_contract (env : Remote) (uid : String)
    (hconf : env.configured = true) :
    (∀ msg, env.selectError = some msg →
        fetchVault env uid = (Except.error msg, env)) ∧
    (∀ row, env.selectError = none → env.db.findVault uid = some row →
        fetchVault env uid = (Except.ok row.state, env)) ∧
    (env.selectError = none → env.db.findVault uid = none →
      ((pushData env (getInitialState env.now (env.currentUser.bind SbUser.email)
            (env.currentUser.bind SbUser.fullName)) (some uid)).1 = false →
          (fetchVault env uid).1 = Except.error "Failed to initialize vault.") ∧
      (∀ env1, pushData env (getInitialState env.now (env.currentUser.bind SbUser.email)
            (env.currentUser.bind SbUser.fullName)) (some uid) = (true, env1) →
          fetchVault env uid =
            (Except.ok (getInitialState env.now (env.currentUser.bind SbUser.email)
              (env.currentUser.bind SbUser.fullName)), env1))) ∧
    (∀ now email name,
      (getInitialState now email name).getField "stayPackages" = some stayPackagesSeed ∧
      (getInitialState now email name).getField "allBookings" = some (Json.jarr []) ∧
      (getInitialState now email name).getField "allTransactions" = some (Json.jarr []) ∧
      (getInitialState now email name).getField "allGuests" = some (Json.jarr []) ∧
      (getInitialState now email name).getField "allStaffLogs" = some (Json.jarr []) ∧
      (getInitialState now email name).getField "allInventory" = some (Json.jarr []) ∧
      ∃ e1 e2 e3, stayPackagesSeed = Json.jarr [e1, e2, e3] ∧
        e1.getField "id" = some (Json.jstr "p1") ∧
        e2.getField "id" = some (Json.jstr "p2") ∧
        e3.getField "id" = some (Json.jstr "p3")) := by
  refine ⟨?_, ?_, ?_, ?_⟩
  · intro msg hsel
    simp [fetchVault, hconf, hsel]
  · intro row hsel hrow
    simp [fetchVault, hconf, hsel, hrow]
  · intro hsel hrow
    constructor
    · intro hpush
      cases hp : pushData env (getInitialState env.now (env.currentUser.bind SbUser.email)
          (env.currentUser.bind SbUser.fullName)) (some uid) with
      | mk b env1 =>
        rw [hp] at hpush
        simp only at hpush
        subst hpush
        simp [fetchVault, hconf, hsel, hrow, hp]
    · intro env1 hp
      simp [fetchVault, hconf, hsel, hrow, hp]
  · intro now email name
    refine ⟨rfl, rfl, rfl, rfl, rfl, rfl, ?_⟩
    exact ⟨_, _, _, rfl, rfl, rfl, rfl⟩

theorem fetchVault_contract_w :
    fetchVault envA "uid-1" = (Except.ok (Json.jstr "S"), envA) :=
  (fetchVault_contract envA "uid-1" rfl).2.1 rowA rfl rfl

/-- C4: `resumeSession` yields the "no session" outcome exactly when the
session query errors or reports no session; when a session exists it
returns the fetched vault, or a freshly seeded default vault when
`fetchVault` fails, so a valid session always yields a vault document. -/
theorem resumeSession_contract (env : Remote) (hconf : env.configured = true) :
    ((resumeSession env).1 = none ↔
      (env.getSessionError ≠ none ∨ env.session = none)) ∧
    (∀ u, env.getSessionError = none → env.session = some u →
      (∀ st env1, fetchVault env u.id = (Except.ok st, env1) →
          resumeSession env = (some st, env1)) ∧
      (∀ msg env1, fetchVault env u.id = (Except.error msg, env1) →
          resumeSession env =
            (some (getInitialState env.now u.email u.fullName), env1))) := by
  constructor
  · constructor
    · intro hnone
      by_contra hcon
      push_neg at hcon
      obtain ⟨herr, hsess⟩ := hcon
      obtain ⟨u, hu⟩ := Option.ne_none_iff_exists'.mp hsess
      cases hfv : fetchVault env u.id with
      | mk r env1 =>
        cases r with
        | ok st => simp [resumeSession, hconf, herr, hu, hfv] at hnone
        | error msg => simp [resumeSession, hconf, herr, hu, hfv] at hnone
    · intro h
      rcases h with herr | hsess
      · obtain ⟨msg, hmsg⟩ := Option.ne_none_iff_exists'.mp herr
        simp [resumeSession, hconf, hmsg]
      · cases hge : env.getSessionError with
        | some msg => simp [resumeSession, hconf, hge]
        | none => simp [resumeSession, hconf, hge, hsess]
  · intro u herr hu
    constructor
    · intro st env1 hfv
      simp [resumeSession, hconf, herr, hu, hfv]
    · intro msg env1 hfv
      simp [resumeSession, hconf, herr, hu, hfv]

theorem resumeSession_contract_w :
    resumeSession envA = (some (Json.jstr "S"), envA) :=
  ((resumeSession_contract envA rfl).2 userA rfl rfl).1 (Json.jstr "S") envA rfl

/-- C5: `pushData` with a resolved identity id performs an upsert keyed
by that id — insert if no row exists, full replacement if one does —
stamping the synchronization instant and the `"v41"` format-version tag,
and reports success as a boolean; it never throws (the model is a total
function into `Bool`), a remote error becoming `false` with the table
untouched. -/
theorem pushData_contract (env : Remote) (state : Json) (uid : String)
    (hconf : env.configured = true) (huid : uid ≠ "") :
    (∀ msg, env.upsertError = some msg →
        pushData env state (some uid) = (false, env)) ∧
    (env.upsertError = none →
      (pushData env state (some uid)).1 = true ∧
      ((pushData env state (some uid)).2).db.findVault uid =
        some ⟨uid, state, env.nowIso, "v41"⟩ ∧
      (∀ uid2, uid2 ≠ uid →
        ((pushData env state (some uid)).2).db.findVault uid2 =
          env.db.findVault uid2)) := by
  have hbeq : (uid == "") = false := by simp [huid]
  constructor
  · intro msg hup
    simp [pushData, hconf, hbeq, hup]
  · intro hup
    refine ⟨by simp [pushData, hconf, hbeq, hup], ?_, ?_⟩
    · simp only [pushData, hconf, Bool.not_true, Bool.false_eq_true, if_false,
        hbeq, hup]
      exact env.db.findVault_upsert_self uid state env.nowIso "v41"
    · intro uid2 hne
      simp only [pushData, hconf, Bool.not_true, Bool.false_eq_true, if_false,
        hbeq, hup]
      exact env.db.findVault_upsert_other uid uid2 state env.nowIso "v41" hne

theorem pushData_contract_w :
    (pushData envA Json.jnull (some "uid-2")).1 = true ∧
    ((pushData envA Json.jnull (some "uid-2")).2).db.findVault "uid-2" =
      some ⟨"uid-2", Json.jnull, envA.nowIso, "v41"⟩ := by
  obtain ⟨h1, h2, _⟩ :=
    (pushData_contract envA Json.jnull "uid-2" rfl (by decide)).2 rfl
  exact ⟨h1, h2⟩

/-- C6: `createAccount` returns the remote's reason when registration is
rejected; a success carrying the default vault seeded with the
identity's email and the given name when an identity and an active
session are both returned (the vault's `userEmail`/`userName` fields
carry them); the distinguishable "Confirmation Required" failure when an
identity but no session is returned; and a generic failure when neither
is returned. -/
theorem createAccount_contract (env : Remote) (email password : String)
    (name : Option String) (hconf : env.configured = true) :
    (∀ msg,
      (env.signUp (normEmail email) (normPassword password) (name.getD "Host")).error
          = some msg →
        (createAccount env email password name).1 = .err msg) ∧
    (∀ u,
      (env.signUp (normEmail email) (normPassword password) (name.getD "Host")).error
          = none →
      (env.signUp (normEmail email) (normPassword password) (name.getD "Host")).user
          = some u →
      (env.signUp (normEmail email) (normPassword password) (name.getD "Host")).hasSession
          = true →
        (createAccount env email password name).1 =
          .ok (getInitialState env.now u.email name) none ∧
        (∀ e, u.email = some e →
          (getInitialState env.now u.email name).getField "userEmail" =
            some (Json.jstr e)) ∧
        (∀ n, name = some n →
          (getInitialState env.now u.email name).getField "userName" =
            some (Json.jstr n))) ∧
    (∀ u,
      (env.signUp (normEmail email) (normPassword password) (name.getD "Host")).error
          = none →
      (env.signUp (normEmail email) (normPassword password) (name.getD "Host")).user
          = some u →
      (env.signUp (normEmail email) (normPassword password) (name.getD "Host")).hasSession
          = false →
        (createAccount env email password name).1 =
          .err "Confirmation Required: Check your inbox to activate your vault.") ∧
    ((env.signUp (normEmail email) (normPassword password) (name.getD "Host")).error
          = none →
      (env.signUp (normEmail email) (normPassword password) (name.getD "Host")).user
          = none →
        (createAccount env email password name).1 =
          .err "Registration process failed to return identity.") := by
  cases hresp : env.signUp (normEmail email) (normPassword password) (name.getD "Host") with
  | mk rerror ruser rsession =>
    refine ⟨?_, ?_, ?_, ?_⟩
    · intro msg hmsg
      simp only [hresp] at hmsg
      simp [createAccount, hconf, hresp, hmsg]
    · intro u herr huser hsess
      simp only [hresp] at herr huser hsess
      subst herr huser hsess
      refine ⟨?_, ?_, ?_⟩
      · cases hp : pushData env (getInitialState env.now u.email name) (some u.id) with
        | mk b env1 => simp [createAccount, hconf, hresp, hp]
      · intro e he
        rw [he]
        cases name <;> rfl
      · intro n hn
        rw [hn]
        cases u.email <;> rfl
    · intro u herr huser hsess
      simp only [hresp] at herr huser hsess
      subst herr huser hsess
      simp [createAccount, hconf, hresp]
    · intro herr huser
      simp only [hresp] at herr huser
      subst herr huser
      simp [createAccount, hconf, hresp]

theorem createAccount_contract_w :
    (createAccount envA "b@x.com" "pw" (some "Nina")).1 =
      .ok (getInitialState envA.now userA.email (some "Nina")) none :=
  ((createAccount_contract envA "b@x.com" "pw" (some "Nina") rfl).2.1
    userA rfl rfl rfl).1

/-- C7: a successful `pushData` of a state followed by `fetchVault` for
the same identity returns exactly the pushed state: the stamped
`last_synced` instant and `app_version` tag live in the row outside the
`state` body, so the body round-trips unchanged. -/
theorem push_then_fetch_roundtrip (env : Remote) (state : Json) (uid : String)
    (hconf : env.configured = true) (huid : uid ≠ "")
    (hup : env.upsertError = none) (hsel : env.selectError = none) :
    (pushData env state (some uid)).1 = true ∧
    (fetchVault (pushData env state (some uid)).2 uid).1 = Except.ok state := by
  have hbeq : (uid == "") = false := by simp [huid]
  constructor
  · simp [pushData, hconf, hbeq, hup]
  · simp [pushData, hconf, hbeq, hup, fetchVault, hsel,
      DB.findVault_upsert_self]

theorem push_then_fetch_roundtrip_w :
    (pushData envA (Json.jstr "T") (some "uid-1")).1 = true ∧
    (fetchVault (pushData envA (Json.jstr "T") (some "uid-1")).2 "uid-1").1 =
      Except.ok (Json.jstr "T") :=
  push_then_fetch_roundtrip envA (Json.jstr "T") "uid-1" rfl (by decide) rfl rfl

/-- C8: `adminGetUserData` scans the vault bodies for a case-insensitive
match on the denormalized `userEmail` field, returning the first
matching body; it returns `none` when no body matches — the auth system
is never consulted (the function reads only the table) — and a body
whose `userEmail` field is absent never matches.  The shape hypothesis
records the data-model invariant that a present `userEmail` is a string
(in JS a non-string value would raise instead). -/
theorem adminGetUserData_contract (env : Remote) (email : String)
    (hconf : env.configured = true) (hsel : env.selectError = none)
    (_hshape : ∀ r ∈ env.db.vaults, emailFieldOk r.state) :
    ((∀ r ∈ env.db.vaults, userEmailLower r.state ≠ some email.toLower) →
        adminGetUserData env email = none) ∧
    (∀ s, adminGetUserData env email = some s →
      ∃ l1 r l2, env.db.vaults = l1 ++ r :: l2 ∧ r.state = s ∧
        userEmailLower s = some email.toLower ∧
        ∀ r2 ∈ l1, userEmailLower r2.state ≠ some email.toLower) ∧
    (∀ email2, email.toLower = email2.toLower →
        adminGetUserData env email = adminGetUserData env email2) ∧
    (∀ r ∈ env.db.vaults, r.state.getField "userEmail" = none →
        adminGetUserData env email ≠ some r.state) := by
  refine ⟨?_, ?_, ?_, ?_⟩
  · intro hno
    simp only [adminGetUserData, hconf, Bool.not_true, Bool.false_eq_true,
      if_false, hsel, Option.map_eq_none']
    rw [List.find?_eq_none]
    intro x hx
    simp only [beq_iff_eq]
    exact hno x hx
  · intro s hs
    simp only [adminGetUserData, hconf, Bool.not_true, Bool.false_eq_true,
      if_false, hsel, Option.map_eq_some'] at hs
    obtain ⟨r, hfind, hstate⟩ := hs
    obtain ⟨hp, l1, l2, heq, hbefore⟩ := List.find?_eq_some.mp hfind
    rw [beq_iff_eq] at hp
    refine ⟨l1, r, l2, heq, hstate, hstate ▸ hp, ?_⟩
    intro r2 hr2
    have := hbefore r2 hr2
    simpa [beq_iff_eq] using this
  · intro email2 h2
    simp only [adminGetUserData, h2]
  · intro r hr hnone hsome
    simp only [adminGetUserData, hconf, Bool.not_true, Bool.false_eq_true,
      if_false, hsel, Option.map_eq_some'] at hsome
    obtain ⟨r2, hfind, hstate⟩ := hsome
    have hp := List.find?_some hfind
    rw [beq_iff_eq, hstate] at hp
    simp [userEmailLower, hnone] at hp

def rowE : VaultRow :=
  ⟨"uid-9", Json.jobj [("userName", Json.jstr "Bob")], "t1", "v41"⟩

def envAdm : Remote := { envA with db := ⟨[rowA, rowE]⟩ }

theorem adminGetUserData_contract_w :
    adminGetUserData envAdm "Carol@y.com" = none := by
  refine (adminGetUserData_contract envAdm "Carol@y.com" rfl rfl ?_).1 ?_
  · intro r hr
    rcases (by simpa [envAdm] using hr : r = rowA ∨ r = rowE) with h | h <;> subst h
    · exact Or.inl rfl
    · exact Or.inl rfl
  · intro r hr
    rcases (by simpa [envAdm] using hr : r = rowA ∨ r = rowE) with h | h <;> subst h
    · simp [userEmailLower, rowA, Json.getField]
    · simp [userEmailLower, rowE, Json.getField, List.lookup]

/-- C9: when registration returns both an identity and an active
session, `createAccount` returns the `ok` result carrying the seeded
default vault even though the `pushData` persisting that vault failed:
the boolean outcome of the persist is discarded. -/
theorem createAccount_ignores_push_failure (env : Remote)
    (email password : String) (name : Option String) (u : SbUser)
    (hconf : env.configured = true)
    (hresp : env.signUp (normEmail email) (normPassword password) (name.getD "Host") =
      ⟨none, some u, true⟩)
    (_hpush : (pushData env (getInitialState env.now u.email name) (some u.id)).1
      = false) :
    (createAccount env email password name).1 =
      .ok (getInitialState env.now u.email name) none := by
  cases hp : pushData env (getInitialState env.now u.email name) (some u.id) with
  | mk b env1 => simp [createAccount, hconf, hresp, hp]

theorem createAccount_ignores_push_failure_w :
    (createAccount envUpErr "b@x.com" "pw" (some "Nina")).1 =
      .ok (getInitialState envUpErr.now userA.email (some "Nina")) none :=
  createAccount_ignores_push_failure envUpErr "b@x.com" "pw" (some "Nina")
    userA rfl rfl rfl

/-- C10: `pushData` called with `userId` omitted while the auth API
reports no current user returns `false` with the environment (and table)
untouched; with an explicit non-empty `userId` the current-user lookup
is never consulted — the returned boolean and the resulting table are
the same for every value of the auth API's current user. -/
theorem pushData_target_resolution (env : Remote) (state : Json)
    (hconf : env.configured = true) :
    (env.currentUser = none → pushData env state none = (false, env)) ∧
    (∀ uid, uid ≠ "" → ∀ c1 c2,
      (pushData { env with currentUser := c1 } state (some uid)).1 =
        (pushData { env with currentUser := c2 } state (some uid)).1 ∧
      ((pushData { env with currentUser := c1 } state (some uid)).2).db =
        ((pushData { env with currentUser := c2 } state (some uid)).2).db) := by
  constructor
  · intro hcu
    simp [pushData, hconf, hcu]
  · intro uid huid c1 c2
    have hbeq : (uid == "") = false := by simp [huid]
    cases hup : env.upsertError with
    | some msg => constructor <;> simp [pushData, hconf, hbeq, hup]
    | none => constructor <;> simp [pushData, hconf, hbeq, hup]

def envNoUser : Remote := { envA with currentUser := none }

theorem pushData_target_resolution_w :
    pushData envNoUser Json.jnull none = (false, envNoUser) :=
  (pushData_target_resolution envNoUser Json.jnull rfl).1 rfl

end HostFlow
